import Mathlib

/-!
Shallow embedding of `src/py/vtdb/update_stream_service.py` (the update-stream
client of the vitess repository): the `Coord` log position, the `EventData`
decoder, and the `stream_start` / `stream_next` operations of
`UpdateStreamConnection`, together with the transport-error classification
applied by their `except` clauses.

Python values appearing in wire replies and request payloads are modelled by
the inductive type `Val`; a Python `dict` is an association list
`List (String × Val)` manipulated through `dictSet` / `dictGet` / `dictDel`,
which mirror item assignment, subscription (raising `KeyError` on a missing
key) and the `del` statement (likewise raising `KeyError`).

Python sequences that the decoder iterates (`PkColNames`, `PkValues` and its
entries) are modelled as `Val.list` values; iterating any other truthy value
(for instance a nonempty string, which Python would happily iterate
character-by-character) is modelled as `Exn.typeError`.  No claim concerns
such a reply.
-/

namespace UpdateStreamService

/-- A Python value carried in a request or reply mapping.  `coordV g s`
models a `Coord` instance (its `GroupId` and `ServerId` attributes) occurring
as a value, as happens when `stream_start` places its whole `start_position`
argument into the request dictionary. -/
inductive Val where
  | pynone : Val
  | str : String → Val
  | int : Int → Val
  | list : List Val → Val
  | pair : Val → Val → Val
  | coordV : String → Option String → Val
  deriving Repr

/-- A Python dict of named fields (a raw wire reply, a request payload, or an
instance `__dict__`). -/
abbrev Dict := List (String × Val)

/-- Truthiness test, as used by `if not raw_response['PkColNames']` and
`if not pkList`: `None`, empty strings, zero and empty lists are falsy; a
tuple (pair) and a `Coord` object are truthy. -/
def falsy : Val → Bool
  | .pynone => true
  | .str s => s.isEmpty
  | .int n => n == 0
  | .list xs => xs.isEmpty
  | .pair _ _ => false
  | .coordV _ _ => false

/-- `k in d`: the dict has an entry for key `k`. -/
def containsKey (d : Dict) (k : String) : Bool :=
  d.any (fun kv => kv.1 == k)

/-- Removal of every binding of `k` (the result of a successful
`del d[k]`). -/
def eraseKey (d : Dict) (k : String) : Dict :=
  d.filter (fun kv => !(kv.1 == k))

/-- `d[k] = v`: item assignment.  A Python 2 dict is an unordered hash map,
so only the key-to-value mapping is observable; the model drops any previous
binding of `k` and records the new one. -/
def dictSet (d : Dict) (k : String) (v : Val) : Dict :=
  eraseKey d k ++ [(k, v)]

/-- Exceptions that can surface inside the `try` blocks of `stream_start` /
`stream_next`.  `appError` and `goRpcError` come from the transport.

Modelled from the spec: the transport error classes (`net/gorpc`, named
`AppError` and `GoRpcError` in the source's `except` clauses) are not part of
the embedded source file.  Per the spec's error taxonomy, the "application
error" signal is one specific kind of the transport's generic RPC-error
signal, so `isGoRpcError` below also matches `appError`; any other exception
(`keyError` and `typeError` from the decoder, or an arbitrary `other`) matches
neither transport class. -/
inductive Exn where
  | appError : List Val → Exn
  | goRpcError : List Val → Exn
  | keyError : String → Exn
  | typeError : Exn
  | other : String → Exn
  deriving Repr

/-- `except gorpc.AppError` matches exactly the transport application-error
signal. -/
def isAppError : Exn → Bool
  | .appError _ => true
  | _ => false

/-- `except gorpc.GoRpcError` matches the generic transport RPC error and —
because the application error is a specific kind of it — also the
application-error signal. -/
def isGoRpcError : Exn → Bool
  | .appError _ => true
  | .goRpcError _ => true
  | _ => false

/-- The `args` of a transport exception, forwarded to the database exception
constructed from it (`raise dbexceptions...(*e.args)`). -/
def exnArgs : Exn → List Val
  | .appError a => a
  | .goRpcError a => a
  | .keyError k => [.str k]
  | .typeError => []
  | .other n => [.str n]

/-- `d[k]`: subscription, raising `KeyError` when the key is missing. -/
def dictGet (d : Dict) (k : String) : Except Exn Val :=
  match d.find? (fun kv => kv.1 == k) with
  | some kv => .ok kv.2
  | none => .error (.keyError k)

/-- `del d[k]`: raises `KeyError` when the key is missing. -/
def dictDel (d : Dict) (k : String) : Except Exn Dict :=
  if containsKey d k then .ok (eraseKey d k) else .error (.keyError k)

/-- The state visible to `EventData.__init__`: the instance dictionary
`self.__dict__` being populated, and the `raw_response` mapping it reads. -/
structure PyState where
  selfDict : Dict
  raw : Dict
  deriving Repr

/-- `self.__dict__[k] = v`: writes only the instance dictionary. -/
def selfSet (s : PyState) (k : String) (v : Val) : PyState :=
  { s with selfDict := dictSet s.selfDict k v }

/-- `del self.__dict__[k]`: removes the key from the instance dictionary,
raising `KeyError` when it is missing. -/
def selfDel (s : PyState) (k : String) : Except Exn PyState :=
  (dictDel s.selfDict k).map (fun d => { s with selfDict := d })

/-- `self.__dict__[k]`: read of the instance dictionary. -/
def selfGet (s : PyState) (k : String) : Except Exn Val :=
  dictGet s.selfDict k

/-- `raw_response[k]`: read of the raw reply. -/
def rawGet (s : PyState) (k : String) : Except Exn Val :=
  dictGet s.raw k

/-- One iteration of the loop
`for pkList in raw_response['PkValues']`: an empty/falsy `pkList` is skipped
(`continue`); otherwise
`pk_row = [(c, v) for c, v in izip(raw_response['PkColNames'], pkList)]`
(the column names are re-read from `raw_response` on every iteration, and
`izip` stops at the shorter sequence) and `self.PkRows.append(pk_row)`. -/
def pkRowsStep (s : PyState) (pkList : Val) : Except Exn PyState :=
  if falsy pkList then .ok s
  else
    match pkList with
    | .list vs => do
        let cols ← rawGet s "PkColNames"
        match cols with
        | .list colNames => do
            let cur ← selfGet s "PkRows"
            match cur with
            | .list rows =>
                .ok (selfSet s "PkRows"
                  (.list (rows ++
                    [.list ((colNames.zip vs).map (fun cv => Val.pair cv.1 cv.2))])))
            | _ => .error .typeError
        | _ => .error .typeError
    | _ => .error .typeError

/-- `EventData.__init__(self, raw_response)` over an explicit state: copy
every item of `raw_response` into `self.__dict__`, set `self.PkRows = []`,
`del` the `PkColNames` and `PkValues` keys, return early when
`raw_response['PkColNames']` is falsy, and otherwise run the row loop over
`raw_response['PkValues']`. -/
def eventDataInitSt (s0 : PyState) : Except Exn PyState := do
  let s1 := s0.raw.foldl (fun s kv => selfSet s kv.1 kv.2) s0
  let s2 := selfSet s1 "PkRows" (Val.list [])
  let s3 ← selfDel s2 "PkColNames"
  let s4 ← selfDel s3 "PkValues"
  let cols ← rawGet s4 "PkColNames"
  if falsy cols then
    return s4
  else do
    let vals ← rawGet s4 "PkValues"
    match vals with
    | .list pkLists => pkLists.foldlM pkRowsStep s4
    | _ => .error .typeError

/-- The instance dictionary of `EventData.__init__` right after the copy
loop, `self.PkRows = []`, and the two `del` statements — i.e. the field set
an event has before (and, when `PkColNames` is falsy, instead of) the row
loop. -/
def preparedDict (raw : Dict) : Dict :=
  eraseKey (eraseKey
    (dictSet ((raw.foldl (fun s kv => selfSet s kv.1 kv.2)
        (⟨[], raw⟩ : PyState)).selfDict) "PkRows" (Val.list []))
    "PkColNames") "PkValues"

/-- Case-split form of what `EventData.__init__` yields on a fresh instance
for every raw reply: a missing `PkColNames` (resp. `PkValues`) key raises
`KeyError` at the corresponding `del`; with both keys present, a falsy
`PkColNames` ends construction with the prepared field set, and otherwise the
row loop runs over the entries of `PkValues`.  Proved equal to the translated
constructor in `eventDataInitSt_spec`. -/
def initSpec (raw : Dict) : Except Exn PyState :=
  match dictGet raw "PkColNames", dictGet raw "PkValues" with
  | .error _, _ => .error (.keyError "PkColNames")
  | .ok _, .error _ => .error (.keyError "PkValues")
  | .ok cols, .ok vals =>
      if falsy cols then .ok ⟨preparedDict raw, raw⟩
      else
        match vals with
        | .list pkLists => pkLists.foldlM pkRowsStep ⟨preparedDict raw, raw⟩
        | _ => .error .typeError

/-- `EventData(raw_response).__dict__`: construct an event from a raw reply
(starting from an empty instance dictionary) and take its field mapping. -/
def eventDataInit (raw : Dict) : Except Exn Dict :=
  match eventDataInitSt ⟨[], raw⟩ with
  | .ok s => .ok s.selfDict
  | .error e => .error e

/-- The `Coord` log position: `GroupId` and an optional `ServerId`
(`server_id = None` by default). -/
structure Coord where
  GroupId : String
  ServerId : Option String
  deriving Repr

/-- A `Coord` instance occurring as a value in a payload. -/
def Coord.toVal (c : Coord) : Val :=
  .coordV c.GroupId c.ServerId

/-- The request argument of
`self.client.stream_call('UpdateStream.ServeUpdateStream', {"GroupId": start_position})`:
the dictionary literal places the entire `start_position` argument (not any
attribute of it) under the key `"GroupId"`. -/
def streamStartRequest (start_position : Val) : Dict :=
  [("GroupId", start_position)]

/-- Whether a payload value carries a set `ServerId` component (a `Coord`
object whose `ServerId` attribute is not `None`). -/
def valCarriesServerId : Val → Bool
  | .coordV _ s => s.isSome
  | _ => false

/-- Whether any value of a request payload carries a set `ServerId`
component. -/
def requestCarriesServerId (req : Dict) : Bool :=
  req.any (fun kv => kv.1 == "ServerId" || valCarriesServerId kv.2)

/-- The outcome of `self.client.stream_next()` — the transport's
pull-next-reply operation: no more data (`None`), a response whose `reply`
field is a raw mapping, or a raised exception. -/
inductive PullResult where
  | noData : PullResult
  | reply : Dict → PullResult
  | exn : Exn → PullResult
  deriving Repr

/-- What `stream_start` / `stream_next` do as seen by their caller: return
`None`, return a decoded event dictionary, raise
`dbexceptions.DatabaseError(*e.args)` (the application-error class of this
layer's taxonomy), raise `dbexceptions.OperationalError(*e.args)`, or
re-raise an exception unchanged — `reraise logged e` records whether
`logging.exception` ran first. -/
inductive Outcome where
  | retNone : Outcome
  | retEvent : Dict → Outcome
  | raiseDb : List Val → Outcome
  | raiseOp : List Val → Outcome
  | reraise : Bool → Exn → Outcome
  deriving Repr

/-- The shared body of both operations' `try` blocks:
`response = self.client.stream_next()`; `if response is None: return None`;
`return EventData(response.reply).__dict__`.  An exception of the pull, or
one raised while constructing `EventData`, escapes to the `except`
clauses. -/
def streamBody (pull : PullResult) : Except Exn (Option Dict) :=
  match pull with
  | .noData => .ok none
  | .reply r => (eventDataInit r).map some
  | .exn e => .error e

/-- `stream_next(self)`: run the body; `except gorpc.AppError` raises
`DatabaseError(*e.args)`, `except gorpc.GoRpcError` raises
`OperationalError(*e.args)`, and the bare `except:` logs and re-raises. -/
def stream_next_run (pull : PullResult) : Outcome :=
  match streamBody pull with
  | .ok none => .retNone
  | .ok (some d) => .retEvent d
  | .error e =>
      if isAppError e then .raiseDb (exnArgs e)
      else if isGoRpcError e then .raiseOp (exnArgs e)
      else .reraise true e

/-- `stream_start(self, start_position)` after the stream call has been
issued (its request argument is `streamStartRequest`): run the body;
`except gorpc.GoRpcError` raises `OperationalError(*e.args)` — there is no
`AppError` clause here — and the bare `except:` logs and re-raises. -/
def stream_start_run (pull : PullResult) : Outcome :=
  match streamBody pull with
  | .ok none => .retNone
  | .ok (some d) => .retEvent d
  | .error e =>
      if isGoRpcError e then .raiseOp (exnArgs e)
      else .reraise true e

/-- A sample raw wire reply used to instantiate the general theorems: two
primary-key columns and three positional rows, the middle one empty. -/
def rawSample : Dict :=
  [("Category", .str "DML"), ("TableName", .str "users"), ("Sql", .str "sql"),
   ("Timestamp", .int 7), ("GroupId", .str "g1"),
   ("PkColNames", .list [.str "c1", .str "c2"]),
   ("PkValues", .list [.list [.int 1, .int 2], .list [],
     .list [.int 3, .int 4]])]

/-- The field mapping `EventData(rawSample).__dict__`. -/
def dSample : Dict :=
  [("Category", .str "DML"), ("TableName", .str "users"), ("Sql", .str "sql"),
   ("Timestamp", .int 7), ("GroupId", .str "g1"),
   ("PkRows", .list
     [.list [.pair (.str "c1") (.int 1), .pair (.str "c2") (.int 2)],
      .list [.pair (.str "c1") (.int 3), .pair (.str "c2") (.int 4)]])]

/-! ### Dictionary lemmas -/

theorem strBeq_comm (a b : String) : (a == b) = (b == a) := by
  by_cases h : a = b
  · subst h; rfl
  · rw [beq_eq_false_iff_ne.mpr h, beq_eq_false_iff_ne.mpr (Ne.symm h)]

theorem containsKey_eraseKey_self (d : Dict) (k : String) :
    containsKey (eraseKey d k) k = false := by
  induction d with
  | nil => rfl
  | cons kv d ih =>
      cases hkv : kv.1 == k
      · simp only [containsKey, eraseKey, List.filter_cons, hkv] at ih ⊢
        simp [hkv, ih]
      · simp only [containsKey, eraseKey, List.filter_cons, hkv] at ih ⊢
        exact ih

theorem containsKey_eraseKey_ne (d : Dict) (k k' : String)
    (h : (k' == k) = false) :
    containsKey (eraseKey d k) k' = containsKey d k' := by
  induction d with
  | nil => rfl
  | cons kv d ih =>
      cases hkv : kv.1 == k
      · simpa [containsKey, eraseKey, List.filter_cons, hkv,
          List.any_cons] using congrArg (kv.1 == k' || ·) ih
      · have hk' : (kv.1 == k') = false := by
          rw [eq_of_beq hkv, strBeq_comm]; exact h
        simpa [containsKey, eraseKey, List.filter_cons, hkv,
          List.any_cons, hk'] using ih

theorem find?_eraseKey_self (d : Dict) (k : String) :
    (eraseKey d k).find? (fun kv => kv.1 == k) = none := by
  rw [List.find?_eq_none]
  intro x hx
  have hx2 : (!(x.1 == k)) = true := (List.mem_filter.mp hx).2
  simp at hx2
  simp [hx2]

theorem dictGet_eraseKey_ne (d : Dict) (k k' : String)
    (h : (k' == k) = false) :
    dictGet (eraseKey d k) k' = dictGet d k' := by
  induction d with
  | nil => rfl
  | cons kv d ih =>
      cases hkv : kv.1 == k
      · cases hk' : kv.1 == k'
        · simpa [dictGet, eraseKey, List.filter_cons, hkv,
            List.find?_cons, hk'] using ih
        · simp [dictGet, eraseKey, List.filter_cons, hkv, List.find?_cons, hk']
      · have hk' : (kv.1 == k') = false := by
          rw [eq_of_beq hkv, strBeq_comm]; exact h
        simpa [dictGet, eraseKey, List.filter_cons, hkv,
          List.find?_cons, hk'] using ih

theorem containsKey_dictSet (d : Dict) (k : String) (v : Val) (k' : String) :
    containsKey (dictSet d k v) k' = ((k' == k) || containsKey d k') := by
  unfold dictSet
  rw [show containsKey (eraseKey d k ++ [(k, v)]) k'
        = (containsKey (eraseKey d k) k' || ((k == k') || false)) from
      List.any_append]
  cases hk : k' == k
  · rw [containsKey_eraseKey_ne d k k' hk, strBeq_comm k k', hk]
    simp
  · have : k' = k := eq_of_beq hk
    subst this
    rw [containsKey_eraseKey_self]
    simp

theorem dictGet_dictSet_self (d : Dict) (k : String) (v : Val) :
    dictGet (dictSet d k v) k = .ok v := by
  unfold dictSet dictGet
  rw [List.find?_append, find?_eraseKey_self]
  simp [List.find?_cons]

theorem dictGet_dictSet_ne (d : Dict) (k : String) (v : Val) (k' : String)
    (h : (k' == k) = false) :
    dictGet (dictSet d k v) k' = dictGet d k' := by
  unfold dictSet
  have hsingle : List.find? (fun kv => kv.1 == k') [(k, v)] = none := by
    have : (k == k') = false := by rw [strBeq_comm]; exact h
    simp [List.find?_cons, this]
  have := dictGet_eraseKey_ne d k k' h
  unfold dictGet at this ⊢
  rw [List.find?_append, hsingle]
  cases hfind : List.find? (fun kv => kv.1 == k') (eraseKey d k) <;>
    rw [hfind] at this <;> simp [Option.or] <;> rw [← this]

theorem containsKey_of_dictGet_ok (d : Dict) (k : String) (v : Val)
    (h : dictGet d k = .ok v) : containsKey d k = true := by
  unfold dictGet at h
  cases hfind : d.find? (fun kv => kv.1 == k) with
  | none => rw [hfind] at h; cases h
  | some kv =>
      have hmem := List.find?_some hfind
      have hmem2 := List.mem_of_find?_eq_some hfind
      unfold containsKey
      exact List.any_eq_true.mpr ⟨kv, hmem2, hmem⟩

/-! ### State-threading lemmas -/

theorem selfSet_raw (s : PyState) (k : String) (v : Val) :
    (selfSet s k v).raw = s.raw := rfl

theorem copyFold_raw (raw : Dict) : ∀ s : PyState,
    (raw.foldl (fun s kv => selfSet s kv.1 kv.2) s).raw = s.raw := by
  induction raw with
  | nil => intro s; rfl
  | cons kv raw ih => intro s; rw [List.foldl_cons, ih]; rfl

theorem containsKey_copyFold (raw : Dict) : ∀ (s : PyState) (k : String),
    containsKey ((raw.foldl (fun s kv => selfSet s kv.1 kv.2) s).selfDict) k
      = (containsKey s.selfDict k || containsKey raw k) := by
  induction raw with
  | nil => intro s k; simp [containsKey]
  | cons kv raw ih =>
      intro s k
      rw [List.foldl_cons, ih]
      rw [show (selfSet s kv.1 kv.2).selfDict = dictSet s.selfDict kv.1 kv.2
        from rfl]
      rw [containsKey_dictSet]
      rw [show containsKey (kv :: raw) k = (kv.1 == k || containsKey raw k)
        from rfl]
      rw [strBeq_comm k kv.1]
      cases kv.1 == k <;> cases containsKey s.selfDict k <;>
        cases containsKey raw k <;> rfl

theorem selfDel_ok (s : PyState) (k : String)
    (h : containsKey s.selfDict k = true) :
    selfDel s k = .ok ⟨eraseKey s.selfDict k, s.raw⟩ := by
  simp [selfDel, dictDel, h, Except.map]

theorem selfDel_err (s : PyState) (k : String)
    (h : containsKey s.selfDict k = false) :
    selfDel s k = .error (.keyError k) := by
  simp [selfDel, dictDel, h, Except.map]

theorem preparedDict_pkRows (raw : Dict) :
    dictGet (preparedDict raw) "PkRows" = .ok (.list []) := by
  unfold preparedDict
  rw [dictGet_eraseKey_ne _ _ _ (by decide),
    dictGet_eraseKey_ne _ _ _ (by decide), dictGet_dictSet_self]

theorem preparedDict_hasPkRows (raw : Dict) :
    containsKey (preparedDict raw) "PkRows" = true := by
  unfold preparedDict
  rw [containsKey_eraseKey_ne _ _ _ (by decide),
    containsKey_eraseKey_ne _ _ _ (by decide), containsKey_dictSet]
  rfl

theorem preparedDict_noPkColNames (raw : Dict) :
    containsKey (preparedDict raw) "PkColNames" = false := by
  unfold preparedDict
  rw [containsKey_eraseKey_ne _ _ _ (by decide), containsKey_eraseKey_self]

theorem preparedDict_noPkValues (raw : Dict) :
    containsKey (preparedDict raw) "PkValues" = false := by
  unfold preparedDict
  rw [containsKey_eraseKey_self]

theorem bind_ok_eq {A B : Type} (a : A) (f : A → Except Exn B) :
    ((Except.ok a : Except Exn A) >>= f) = f a := rfl

theorem bind_err_eq {A B : Type} (e : Exn) (f : A → Except Exn B) :
    ((Except.error e : Except Exn A) >>= f) = .error e := rfl

theorem dictGet_error (d : Dict) (k : String) (e : Exn)
    (h : dictGet d k = .error e) :
    containsKey d k = false ∧ e = .keyError k := by
  unfold dictGet at h
  cases hfind : d.find? (fun kv => kv.1 == k) with
  | some kv => rw [hfind] at h; cases h
  | none =>
      rw [hfind] at h
      refine ⟨?_, by cases h; rfl⟩
      rw [List.find?_eq_none] at hfind
      unfold containsKey
      rw [List.any_eq_false]
      intro x hx
      exact hfind x hx

/-- The instance dictionary after the copy loop and `self.PkRows = []` has
each key other than `PkRows` exactly when the raw reply has it. -/
theorem copied_containsKey (raw : Dict) (k : String)
    (hk : (k == "PkRows") = false) :
    containsKey (selfSet (raw.foldl (fun s kv => selfSet s kv.1 kv.2)
      (⟨[], raw⟩ : PyState)) "PkRows" (Val.list [])).selfDict k
      = containsKey raw k := by
  rw [show (selfSet (raw.foldl (fun s kv => selfSet s kv.1 kv.2)
      (⟨[], raw⟩ : PyState)) "PkRows" (Val.list [])).selfDict
    = dictSet ((raw.foldl (fun s kv => selfSet s kv.1 kv.2)
      (⟨[], raw⟩ : PyState)).selfDict) "PkRows" (Val.list []) from rfl]
  rw [containsKey_dictSet, containsKey_copyFold, hk]
  rw [show containsKey (⟨[], raw⟩ : PyState).selfDict k = false from rfl]
  rw [Bool.false_or, Bool.false_or]

/-- Explicit characterization of `EventData.__init__` on a fresh instance:
the translated constructor agrees with the case-split form `initSpec` on
every raw reply. -/
theorem eventDataInitSt_spec (raw : Dict) :
    eventDataInitSt ⟨[], raw⟩ = initSpec raw := by
  have h1raw : (raw.foldl (fun s kv => selfSet s kv.1 kv.2)
      (⟨[], raw⟩ : PyState)).raw = raw := copyFold_raw raw _
  cases hC : dictGet raw "PkColNames" with
  | error e =>
      obtain ⟨hCc, he⟩ := dictGet_error raw "PkColNames" e hC
      simp only [eventDataInitSt]
      rw [selfDel_err _ _ ((copied_containsKey raw _ (by decide)).trans hCc)]
      simp only [bind_err_eq]
      unfold initSpec
      rw [hC]
  | ok cols =>
      have hCc : containsKey raw "PkColNames" = true :=
        containsKey_of_dictGet_ok raw "PkColNames" cols hC
      have hs3 : containsKey (eraseKey (selfSet (raw.foldl
          (fun s kv => selfSet s kv.1 kv.2) (⟨[], raw⟩ : PyState))
          "PkRows" (Val.list [])).selfDict "PkColNames") "PkValues"
          = containsKey raw "PkValues" := by
        rw [containsKey_eraseKey_ne _ _ _ (by decide)]
        exact copied_containsKey raw _ (by decide)
      cases hV : dictGet raw "PkValues" with
      | error e2 =>
          obtain ⟨hVc, he2⟩ := dictGet_error raw "PkValues" e2 hV
          simp only [eventDataInitSt]
          rw [selfDel_ok _ _ ((copied_containsKey raw _ (by decide)).trans hCc)]
          simp only [bind_ok_eq]
          rw [selfDel_err _ _ (hs3.trans hVc)]
          simp only [bind_err_eq]
          unfold initSpec
          rw [hC, hV]
      | ok vals =>
          have hVc : containsKey raw "PkValues" = true :=
            containsKey_of_dictGet_ok raw "PkValues" vals hV
          simp only [eventDataInitSt]
          rw [selfDel_ok _ _ ((copied_containsKey raw _ (by decide)).trans hCc)]
          simp only [bind_ok_eq]
          rw [selfDel_ok _ _ (hs3.trans hVc)]
          simp only [bind_ok_eq, rawGet, selfSet_raw, h1raw]
          rw [hC]
          simp only [bind_ok_eq]
          unfold initSpec
          rw [hC, hV]
          cases hf : falsy cols
          · simp only [hf, Bool.false_eq_true, if_false]
            simp only [bind_ok_eq]
            rfl
          · simp only [hf, if_true]
            rfl

/-- A successful loop iteration either skipped a falsy `pkList` or appended
exactly one row built by zipping the (re-read) column names with it. -/
theorem pkRowsStep_ok (s s' : PyState) (a : Val)
    (h : pkRowsStep s a = .ok s') :
    (falsy a = true ∧ s' = s) ∨
    (falsy a = false ∧ ∃ vs colNames rows,
      a = .list vs ∧
      rawGet s "PkColNames" = .ok (.list colNames) ∧
      dictGet s.selfDict "PkRows" = .ok (.list rows) ∧
      s' = selfSet s "PkRows" (.list (rows ++
        [.list ((colNames.zip vs).map (fun cv => Val.pair cv.1 cv.2))]))) := by
  unfold pkRowsStep at h
  cases hf : falsy a
  · rw [hf] at h
    simp only [Bool.false_eq_true, if_false] at h
    right
    refine ⟨rfl, ?_⟩
    cases a with
    | list vs =>
        cases hcols : rawGet s "PkColNames" with
        | error e => rw [hcols] at h; cases h
        | ok cols =>
            rw [hcols] at h
            simp only [bind_ok_eq] at h
            cases cols with
            | list colNames =>
                cases hcur : selfGet s "PkRows" with
                | error e2 => rw [hcur] at h; cases h
                | ok cur =>
                    rw [hcur] at h
                    simp only [bind_ok_eq] at h
                    cases cur with
                    | list rows =>
                        refine ⟨vs, colNames, rows, rfl, rfl, hcur, ?_⟩
                        cases h; rfl
                    | pynone => cases h
                    | str _ => cases h
                    | int _ => cases h
                    | pair _ _ => cases h
                    | coordV _ _ => cases h
            | pynone => cases h
            | str _ => cases h
            | int _ => cases h
            | pair _ _ => cases h
            | coordV _ _ => cases h
    | pynone => cases h
    | str _ => cases h
    | int _ => cases h
    | pair _ _ => cases h
    | coordV _ _ => cases h
  · rw [hf] at h
    simp only [if_true] at h
    left
    exact ⟨rfl, by cases h; rfl⟩

/-- Invariants of a successful run of the whole row loop: the raw reply
component is untouched, every instance field other than `PkRows` is
untouched, and `PkRows` grows by exactly one row per non-falsy entry of the
iterated list. -/
theorem pkRowsFold (ls : List Val) : ∀ s s' : PyState,
    ls.foldlM pkRowsStep s = .ok s' →
    s'.raw = s.raw ∧
    (∀ k, (k == "PkRows") = false →
      containsKey s'.selfDict k = containsKey s.selfDict k ∧
      dictGet s'.selfDict k = dictGet s.selfDict k) ∧
    (∀ rows, dictGet s.selfDict "PkRows" = .ok (.list rows) →
      ∃ rows2, dictGet s'.selfDict "PkRows" = .ok (.list rows2) ∧
        rows2.length
          = rows.length + (ls.filter (fun v => !falsy v)).length) := by
  induction ls with
  | nil =>
      intro s s' h
      have hss : s' = s := by
        rw [show ([] : List Val).foldlM pkRowsStep s
          = (.ok s : Except Exn PyState) from rfl] at h
        cases h; rfl
      subst hss
      refine ⟨rfl, fun k _ => ⟨rfl, rfl⟩, fun rows hrows => ⟨rows, hrows, ?_⟩⟩
      simp
  | cons a ls ih =>
      intro s s' h
      rw [List.foldlM_cons] at h
      cases hstep : pkRowsStep s a with
      | error e => rw [hstep] at h; cases h
      | ok mid =>
          rw [hstep] at h
          simp only [bind_ok_eq] at h
          obtain hskip | happ := pkRowsStep_ok s mid a hstep
          · obtain ⟨hf, hms⟩ := hskip
            subst hms
            obtain ⟨ihraw, ihkeys, ihrows⟩ := ih _ _ h
            refine ⟨ihraw, ihkeys, fun rows hrows => ?_⟩
            obtain ⟨rows2, hr2, hlen⟩ := ihrows rows hrows
            refine ⟨rows2, hr2, ?_⟩
            rw [hlen, List.filter_cons]
            simp [hf]
          · obtain ⟨hf, vs, colNames, rows0, ha, hcols, hrows0, hmid⟩ := happ
            obtain ⟨ihraw, ihkeys, ihrows⟩ := ih mid s' h
            refine ⟨?_, ?_, ?_⟩
            · rw [ihraw, hmid]; rfl
            · intro k hk
              obtain ⟨hck, hgk⟩ := ihkeys k hk
              constructor
              · rw [hck, hmid]
                rw [show (selfSet s "PkRows" (.list (rows0 ++
                    [.list ((colNames.zip vs).map
                      (fun cv => Val.pair cv.1 cv.2))]))).selfDict
                  = dictSet s.selfDict "PkRows" (.list (rows0 ++
                    [.list ((colNames.zip vs).map
                      (fun cv => Val.pair cv.1 cv.2))])) from rfl]
                rw [containsKey_dictSet, hk, Bool.false_or]
              · rw [hgk, hmid]
                exact dictGet_dictSet_ne _ _ _ _ hk
            · intro rows hrows
              have hr00 : rows0 = rows := by
                rw [hrows] at hrows0
                cases hrows0; rfl
              subst hr00
              have hmidrows : dictGet mid.selfDict "PkRows"
                  = .ok (.list (rows0 ++
                    [.list ((colNames.zip vs).map
                      (fun cv => Val.pair cv.1 cv.2))])) := by
                rw [hmid]
                exact dictGet_dictSet_self _ _ _
              obtain ⟨rows2, hr2, hlen⟩ := ihrows _ hmidrows
              refine ⟨rows2, hr2, ?_⟩
              have hlap : (rows0 ++ [Val.list ((colNames.zip vs).map
                  (fun cv => Val.pair cv.1 cv.2))]).length
                  = rows0.length + 1 := by simp
              rw [hlen, hlap, List.filter_cons]
              simp only [hf, Bool.not_false, if_true, List.length_cons]
              omega

theorem dictGet_ok_of_containsKey (d : Dict) (k : String)
    (h : containsKey d k = true) : ∃ v, dictGet d k = .ok v := by
  unfold dictGet
  cases hfind : d.find? (fun kv => kv.1 == k) with
  | some kv => exact ⟨kv.2, rfl⟩
  | none =>
      exfalso
      rw [List.find?_eq_none] at hfind
      unfold containsKey at h
      rw [List.any_eq_true] at h
      obtain ⟨x, hx, hpx⟩ := h
      exact hfind x hx hpx

/-- A loop iteration on an empty value list is a `continue`. -/
theorem pkRowsStep_skip (s : PyState) : pkRowsStep s (.list []) = .ok s := rfl

/-- A loop iteration on a nonempty value list appends the zipped row. -/
theorem pkRowsStep_app (s : PyState) (vs colNames rows : List Val)
    (hvs : vs.isEmpty = false)
    (hcols : rawGet s "PkColNames" = .ok (.list colNames))
    (hrows : dictGet s.selfDict "PkRows" = .ok (.list rows)) :
    pkRowsStep s (.list vs) = .ok (selfSet s "PkRows" (.list (rows ++
      [.list ((colNames.zip vs).map (fun cv => Val.pair cv.1 cv.2))]))) := by
  unfold pkRowsStep
  rw [show falsy (.list vs) = vs.isEmpty from rfl, hvs]
  simp only [Bool.false_eq_true, if_false]
  rw [hcols]
  simp only [bind_ok_eq]
  rw [show selfGet s "PkRows" = dictGet s.selfDict "PkRows" from rfl, hrows]
  simp only [bind_ok_eq]

/-- Case split of every successful decode at the `__dict__` level. -/
theorem eventDataInit_ok_cases (raw : Dict) (d : Dict)
    (h : eventDataInit raw = .ok d) :
    ∃ cols vals, dictGet raw "PkColNames" = .ok cols ∧
      dictGet raw "PkValues" = .ok vals ∧
      ((falsy cols = true ∧ d = preparedDict raw) ∨
       (falsy cols = false ∧ ∃ pkLists s1, vals = .list pkLists ∧
         pkLists.foldlM pkRowsStep ⟨preparedDict raw, raw⟩ = .ok s1 ∧
         d = s1.selfDict)) := by
  unfold eventDataInit at h
  rw [eventDataInitSt_spec] at h
  unfold initSpec at h
  cases hC : dictGet raw "PkColNames" with
  | error e => rw [hC] at h; cases h
  | ok cols =>
      rw [hC] at h
      cases hV : dictGet raw "PkValues" with
      | error e2 => rw [hV] at h; cases h
      | ok vals =>
          rw [hV] at h
          refine ⟨cols, vals, rfl, rfl, ?_⟩
          cases vals with
          | list pkLists =>
              replace h : (match (if falsy cols then
                  (Except.ok (⟨preparedDict raw, raw⟩ : PyState)
                    : Except Exn PyState)
                  else List.foldlM pkRowsStep
                    (⟨preparedDict raw, raw⟩ : PyState) pkLists) with
                | Except.ok s => Except.ok s.selfDict
                | Except.error e => Except.error e) = Except.ok d := h
              cases hf : falsy cols
              · right
                rw [hf] at h
                simp only [Bool.false_eq_true, if_false] at h
                refine ⟨rfl, ?_⟩
                cases hfold : List.foldlM pkRowsStep
                    (⟨preparedDict raw, raw⟩ : PyState) pkLists with
                | error e3 => rw [hfold] at h; cases h
                | ok s1 =>
                    rw [hfold] at h
                    cases h
                    exact ⟨pkLists, s1, rfl, hfold, rfl⟩
              · left
                rw [hf] at h
                simp only [if_true] at h
                cases h
                exact ⟨rfl, rfl⟩
          | pynone =>
              replace h : (match (if falsy cols then
                  (Except.ok (⟨preparedDict raw, raw⟩ : PyState)
                    : Except Exn PyState)
                  else Except.error Exn.typeError) with
                | Except.ok s => Except.ok s.selfDict
                | Except.error e => Except.error e) = Except.ok d := h
              cases hf : falsy cols
              · rw [hf] at h
                simp only [Bool.false_eq_true, if_false] at h
                cases h
              · left
                rw [hf] at h
                simp only [if_true] at h
                cases h
                exact ⟨rfl, rfl⟩
          | str a =>
              replace h : (match (if falsy cols then
                  (Except.ok (⟨preparedDict raw, raw⟩ : PyState)
                    : Except Exn PyState)
                  else Except.error Exn.typeError) with
                | Except.ok s => Except.ok s.selfDict
                | Except.error e => Except.error e) = Except.ok d := h
              cases hf : falsy cols
              · rw [hf] at h
                simp only [Bool.false_eq_true, if_false] at h
                cases h
              · left
                rw [hf] at h
                simp only [if_true] at h
                cases h
                exact ⟨rfl, rfl⟩
          | int a =>
              replace h : (match (if falsy cols then
                  (Except.ok (⟨preparedDict raw, raw⟩ : PyState)
                    : Except Exn PyState)
                  else Except.error Exn.typeError) with
                | Except.ok s => Except.ok s.selfDict
                | Except.error e => Except.error e) = Except.ok d := h
              cases hf : falsy cols
              · rw [hf] at h
                simp only [Bool.false_eq_true, if_false] at h
                cases h
              · left
                rw [hf] at h
                simp only [if_true] at h
                cases h
                exact ⟨rfl, rfl⟩
          | pair a b =>
              replace h : (match (if falsy cols then
                  (Except.ok (⟨preparedDict raw, raw⟩ : PyState)
                    : Except Exn PyState)
                  else Except.error Exn.typeError) with
                | Except.ok s => Except.ok s.selfDict
                | Except.error e => Except.error e) = Except.ok d := h
              cases hf : falsy cols
              · rw [hf] at h
                simp only [Bool.false_eq_true, if_false] at h
                cases h
              · left
                rw [hf] at h
                simp only [if_true] at h
                cases h
                exact ⟨rfl, rfl⟩
          | coordV a b =>
              replace h : (match (if falsy cols then
                  (Except.ok (⟨preparedDict raw, raw⟩ : PyState)
                    : Except Exn PyState)
                  else Except.error Exn.typeError) with
                | Except.ok s => Except.ok s.selfDict
                | Except.error e => Except.error e) = Except.ok d := h
              cases hf : falsy cols
              · rw [hf] at h
                simp only [Bool.false_eq_true, if_false] at h
                cases h
              · left
                rw [hf] at h
                simp only [if_true] at h
                cases h
                exact ⟨rfl, rfl⟩

/-- Every successful decode yields a field mapping with `PkRows` and without
the consumed `PkColNames` / `PkValues` keys. -/
theorem eventDataInit_keys (raw : Dict) (d : Dict)
    (h : eventDataInit raw = .ok d) :
    containsKey d "PkRows" = true ∧
    containsKey d "PkColNames" = false ∧
    containsKey d "PkValues" = false := by
  obtain ⟨cols, vals, hC, hV, hcase | hcase⟩ := eventDataInit_ok_cases raw d h
  · obtain ⟨hf, hd⟩ := hcase
    subst hd
    exact ⟨preparedDict_hasPkRows raw, preparedDict_noPkColNames raw,
      preparedDict_noPkValues raw⟩
  · obtain ⟨hf, pkLists, s1, hvl, hfold, hd⟩ := hcase
    subst hd
    obtain ⟨hraw, hkeys, hrows⟩ := pkRowsFold pkLists _ _ hfold
    obtain ⟨rows2, hr2, _⟩ := hrows [] (preparedDict_pkRows raw)
    refine ⟨containsKey_of_dictGet_ok _ _ _ hr2, ?_, ?_⟩
    · rw [(hkeys "PkColNames" (by decide)).1]
      exact preparedDict_noPkColNames raw
    · rw [(hkeys "PkValues" (by decide)).1]
      exact preparedDict_noPkValues raw

/-- `stream_start` on a delivered reply: decode and return, with the `except`
clauses around the decoder. -/
theorem stream_start_run_reply (r : Dict) :
    stream_start_run (.reply r)
      = match eventDataInit r with
        | .ok d => .retEvent d
        | .error e =>
            if isGoRpcError e then .raiseOp (exnArgs e)
            else .reraise true e := by
  unfold stream_start_run streamBody
  cases hev : eventDataInit r <;> simp [Except.map, hev]

/-- `stream_next` on a delivered reply: decode and return, with the `except`
clauses around the decoder. -/
theorem stream_next_run_reply (r : Dict) :
    stream_next_run (.reply r)
      = match eventDataInit r with
        | .ok d => .retEvent d
        | .error e =>
            if isAppError e then .raiseDb (exnArgs e)
            else if isGoRpcError e then .raiseOp (exnArgs e)
            else .reraise true e := by
  unfold stream_next_run streamBody
  cases hev : eventDataInit r <;> simp [Except.map, hev]

/-- A returned event can only come from a delivered reply that decoded
successfully. -/
theorem retEvent_of_run (pull : PullResult) (d : Dict)
    (h : stream_start_run pull = .retEvent d ∨
      stream_next_run pull = .retEvent d) :
    ∃ r, pull = .reply r ∧ eventDataInit r = .ok d := by
  cases pull with
  | noData => obtain h | h := h <;> cases h
  | exn e =>
      obtain h | h := h
      · replace h : (if isGoRpcError e then Outcome.raiseOp (exnArgs e)
            else Outcome.reraise true e) = Outcome.retEvent d := h
        cases hg : isGoRpcError e <;> rw [hg] at h <;>
          simp only [Bool.false_eq_true, if_false, if_true] at h <;> cases h
      · replace h : (if isAppError e then Outcome.raiseDb (exnArgs e)
            else if isGoRpcError e then Outcome.raiseOp (exnArgs e)
            else Outcome.reraise true e) = Outcome.retEvent d := h
        cases ha : isAppError e
        · rw [ha] at h
          simp only [Bool.false_eq_true, if_false] at h
          cases hg : isGoRpcError e <;> rw [hg] at h <;>
            simp only [Bool.false_eq_true, if_false, if_true] at h <;> cases h
        · rw [ha] at h
          simp only [if_true] at h
          cases h
  | reply r =>
      refine ⟨r, rfl, ?_⟩
      obtain h | h := h
      · rw [stream_start_run_reply] at h
        cases hev : eventDataInit r with
        | ok d2 =>
            rw [hev] at h
            replace h : Outcome.retEvent d2 = Outcome.retEvent d := h
            cases h
            rfl
        | error e =>
            exfalso
            rw [hev] at h
            replace h : (if isGoRpcError e then Outcome.raiseOp (exnArgs e)
                else Outcome.reraise true e) = Outcome.retEvent d := h
            cases hg : isGoRpcError e <;> rw [hg] at h <;>
              simp only [Bool.false_eq_true, if_false, if_true] at h <;>
              cases h
      · rw [stream_next_run_reply] at h
        cases hev : eventDataInit r with
        | ok d2 =>
            rw [hev] at h
            replace h : Outcome.retEvent d2 = Outcome.retEvent d := h
            cases h
            rfl
        | error e =>
            exfalso
            rw [hev] at h
            replace h : (if isAppError e then Outcome.raiseDb (exnArgs e)
                else if isGoRpcError e then Outcome.raiseOp (exnArgs e)
                else Outcome.reraise true e) = Outcome.retEvent d := h
            cases ha : isAppError e
            · rw [ha] at h
              simp only [Bool.false_eq_true, if_false] at h
              cases hg : isGoRpcError e <;> rw [hg] at h <;>
                simp only [Bool.false_eq_true, if_false, if_true] at h <;>
                cases h
            · rw [ha] at h
              simp only [if_true] at h
              cases h

/-! ### Claim theorems -/

/-- C1 (counterexample): for the log position `Coord("g1", "server1")`, the
request argument of the streaming call is not `{GroupId: "g1"}` — the claim
that `stream_start` sends exactly the position's group component is false —
and the set `ServerId` component does appear in the outgoing payload. -/
theorem C1_counterexample :
    streamStartRequest (Coord.toVal ⟨"g1", some "server1"⟩)
      ≠ [("GroupId", Val.str "g1")] ∧
    requestCarriesServerId (streamStartRequest
      (Coord.toVal ⟨"g1", some "server1"⟩)) = true := by
  constructor
  · intro h
    simp [streamStartRequest, Coord.toVal] at h
  · rfl

/-- C1 (amended): `stream_start(position)` sends `{"GroupId": position}` —
the entire position object is the value of the `GroupId` key — so whenever
`position.ServerId` is set, the `ServerId` component does appear (nested) in
the outgoing request payload. -/
theorem C1_request_whole_position (c : Coord) :
    streamStartRequest (Coord.toVal c)
      = [("GroupId", Val.coordV c.GroupId c.ServerId)] ∧
    requestCarriesServerId (streamStartRequest (Coord.toVal c))
      = c.ServerId.isSome := by
  refine ⟨rfl, ?_⟩
  simp [streamStartRequest, Coord.toVal, requestCarriesServerId,
    valCarriesServerId]

/-- C1 (witness): the amended request shape at a concrete position with a
set server identifier. -/
theorem C1_witness :
    streamStartRequest (Coord.toVal ⟨"g1", some "server1"⟩)
      = [("GroupId", Val.coordV "g1" (some "server1"))] ∧
    requestCarriesServerId (streamStartRequest
        (Coord.toVal ⟨"g1", some "server1"⟩))
      = (some "server1" : Option String).isSome :=
  C1_request_whole_position ⟨"g1", some "server1"⟩

/-- C2 (counterexample): on the same transport application-error signal,
`stream_start` raises `OperationalError` — not the `DatabaseError` that
models this layer's `ApplicationError` — while `stream_next` raises
`DatabaseError`; the two operations do not apply the identical
error-classification policy. -/
theorem C2_counterexample :
    stream_start_run (.exn (.appError [Val.str "boom"]))
      = .raiseOp [Val.str "boom"] ∧
    stream_next_run (.exn (.appError [Val.str "boom"]))
      = .raiseDb [Val.str "boom"] ∧
    stream_start_run (.exn (.appError [Val.str "boom"]))
      ≠ stream_next_run (.exn (.appError [Val.str "boom"])) := by
  refine ⟨rfl, rfl, ?_⟩
  intro h
  replace h : Outcome.raiseOp [Val.str "boom"]
      = Outcome.raiseDb [Val.str "boom"] := h
  cases h

/-- C2 (amended): on a failure of the pull-next-reply operation,
`stream_next` maps an application error to `DatabaseError`, a generic
transport RPC error to `OperationalError`, and re-raises (after logging) any
other exception; `stream_start` has no application-error clause, so it maps
both transport error kinds — the application error included — to
`OperationalError`, and re-raises (after logging) any other exception.  The
two policies agree except on the application-error signal. -/
theorem C2_error_policies (a : List Val) (n : String) :
    stream_next_run (.exn (.appError a)) = .raiseDb a ∧
    stream_next_run (.exn (.goRpcError a)) = .raiseOp a ∧
    stream_next_run (.exn (.other n)) = .reraise true (.other n) ∧
    stream_start_run (.exn (.appError a)) = .raiseOp a ∧
    stream_start_run (.exn (.goRpcError a)) = .raiseOp a ∧
    stream_start_run (.exn (.other n)) = .reraise true (.other n) :=
  ⟨rfl, rfl, rfl, rfl, rfl, rfl⟩

/-- C2 (witness): the amended error policies at concrete exception
arguments. -/
theorem C2_witness :
    stream_next_run (.exn (.appError [Val.str "x"])) = .raiseDb [Val.str "x"] ∧
    stream_next_run (.exn (.goRpcError [Val.str "x"]))
      = .raiseOp [Val.str "x"] ∧
    stream_next_run (.exn (.other "ValueErr"))
      = .reraise true (.other "ValueErr") ∧
    stream_start_run (.exn (.appError [Val.str "x"]))
      = .raiseOp [Val.str "x"] ∧
    stream_start_run (.exn (.goRpcError [Val.str "x"]))
      = .raiseOp [Val.str "x"] ∧
    stream_start_run (.exn (.other "ValueErr"))
      = .reraise true (.other "ValueErr") :=
  C2_error_policies [Val.str "x"] "ValueErr"

/-- C7: decoding is deterministic — equal raw replies decode to equal
events; the decoder is a pure function of the reply mapping. -/
theorem C7_decode_deterministic (r1 r2 : Dict) (h : r1 = r2) :
    eventDataInit r1 = eventDataInit r2 := by
  rw [h]

/-- C7 (witness): the determinism theorem instantiated at the sample
reply. -/
theorem C7_witness : eventDataInit rawSample = eventDataInit rawSample :=
  C7_decode_deterministic rawSample rawSample rfl

/-- C8: an exception of the pull-next-reply operation that is neither the
transport application-error signal nor a generic transport RPC error is
logged and re-raised unchanged by both `stream_start` and `stream_next`. -/
theorem C8_unknown_exn_reraised (e : Exn)
    (h1 : isAppError e = false) (h2 : isGoRpcError e = false) :
    stream_start_run (.exn e) = .reraise true e ∧
    stream_next_run (.exn e) = .reraise true e := by
  constructor
  · show (if isGoRpcError e then Outcome.raiseOp (exnArgs e)
      else Outcome.reraise true e) = Outcome.reraise true e
    rw [h2]
    simp
  · show (if isAppError e then Outcome.raiseDb (exnArgs e)
      else if isGoRpcError e then Outcome.raiseOp (exnArgs e)
      else Outcome.reraise true e) = Outcome.reraise true e
    rw [h1, h2]
    simp

/-- C8 (witness): a `ValueError`-like unknown exception is logged and
re-raised unchanged by both operations. -/
theorem C8_witness :
    stream_start_run (.exn (.other "ValueError"))
      = .reraise true (.other "ValueError") ∧
    stream_next_run (.exn (.other "ValueError"))
      = .reraise true (.other "ValueError") :=
  C8_unknown_exn_reraised (.other "ValueError") rfl rfl

/-- C3 (counterexample): a raw reply from which the `PkColNames` key is
absent does not decode successfully — the unconditional
`del self.__dict__['PkColNames']` raises `KeyError` — contradicting the claim
that an absent `PkColNames` yields an event with empty `PkRows`. -/
theorem C3_counterexample :
    eventDataInit [("Category", Val.str "DML"), ("PkValues", Val.list [])]
      = .error (.keyError "PkColNames") := rfl

/-- C3 (amended): for every raw reply in which the `PkColNames` key is
present with an empty (falsy) value and the `PkValues` key is present,
decoding succeeds and yields an event whose `PkRows` is the empty sequence,
regardless of the content of `PkValues`; when either key is absent, the
decoder instead raises `KeyError` (see the counterexample). -/
theorem C3_empty_pkColNames (raw : Dict) (cols : Val)
    (hc : dictGet raw "PkColNames" = .ok cols)
    (hv : containsKey raw "PkValues" = true)
    (hf : falsy cols = true) :
    ∃ d, eventDataInit raw = .ok d ∧ dictGet d "PkRows" = .ok (.list []) := by
  obtain ⟨vals, hvals⟩ := dictGet_ok_of_containsKey raw "PkValues" hv
  refine ⟨preparedDict raw, ?_, preparedDict_pkRows raw⟩
  have key : ∀ x : Except Exn PyState,
      (match (if falsy cols then
          (Except.ok (⟨preparedDict raw, raw⟩ : PyState) : Except Exn PyState)
        else x) with
      | Except.ok s => Except.ok s.selfDict
      | Except.error e => Except.error e) = Except.ok (preparedDict raw) := by
    intro x
    rw [hf]
    simp only [if_true]
  unfold eventDataInit
  rw [eventDataInitSt_spec]
  unfold initSpec
  rw [hc, hvals]
  clear hvals hv
  exact key (match vals with
    | Val.list pkLists =>
        List.foldlM pkRowsStep (⟨preparedDict raw, raw⟩ : PyState) pkLists
    | _ => Except.error Exn.typeError)

/-- C3 (witness): a reply with an empty `PkColNames` and a non-sequence
`PkValues` still decodes, with empty `PkRows`. -/
theorem C3_witness :
    ∃ d, eventDataInit [("PkColNames", Val.list []),
        ("PkValues", Val.str "garbage")] = .ok d ∧
      dictGet d "PkRows" = .ok (.list []) :=
  C3_empty_pkColNames [("PkColNames", Val.list []),
    ("PkValues", Val.str "garbage")] (Val.list []) rfl rfl rfl

/-- C5: `stream_start` and `stream_next` return `None` exactly when the
transport's pull-next-reply yields no data, and no error is raised in that
case. -/
theorem C5_none_iff_noData (pull : PullResult) :
    (stream_start_run pull = .retNone ↔ pull = .noData) ∧
    (stream_next_run pull = .retNone ↔ pull = .noData) := by
  cases pull with
  | noData => exact ⟨⟨fun _ => rfl, fun _ => rfl⟩, ⟨fun _ => rfl, fun _ => rfl⟩⟩
  | reply r =>
      refine ⟨⟨fun h => ?_, fun h => by cases h⟩,
        ⟨fun h => ?_, fun h => by cases h⟩⟩
      · exfalso
        rw [stream_start_run_reply] at h
        cases hev : eventDataInit r with
        | ok d2 =>
            rw [hev] at h
            replace h : Outcome.retEvent d2 = Outcome.retNone := h
            cases h
        | error e =>
            rw [hev] at h
            replace h : (if isGoRpcError e then Outcome.raiseOp (exnArgs e)
                else Outcome.reraise true e) = Outcome.retNone := h
            cases hg : isGoRpcError e <;> rw [hg] at h <;>
              simp only [Bool.false_eq_true, if_false, if_true] at h <;>
              cases h
      · exfalso
        rw [stream_next_run_reply] at h
        cases hev : eventDataInit r with
        | ok d2 =>
            rw [hev] at h
            replace h : Outcome.retEvent d2 = Outcome.retNone := h
            cases h
        | error e =>
            rw [hev] at h
            replace h : (if isAppError e then Outcome.raiseDb (exnArgs e)
                else if isGoRpcError e then Outcome.raiseOp (exnArgs e)
                else Outcome.reraise true e) = Outcome.retNone := h
            cases ha : isAppError e
            · rw [ha] at h
              simp only [Bool.false_eq_true, if_false] at h
              cases hg : isGoRpcError e <;> rw [hg] at h <;>
                simp only [Bool.false_eq_true, if_false, if_true] at h <;>
                cases h
            · rw [ha] at h
              simp only [if_true] at h
              cases h
  | exn e =>
      refine ⟨⟨fun h => ?_, fun h => by cases h⟩,
        ⟨fun h => ?_, fun h => by cases h⟩⟩
      · exfalso
        replace h : (if isGoRpcError e then Outcome.raiseOp (exnArgs e)
            else Outcome.reraise true e) = Outcome.retNone := h
        cases hg : isGoRpcError e <;> rw [hg] at h <;>
          simp only [Bool.false_eq_true, if_false, if_true] at h <;> cases h
      · exfalso
        replace h : (if isAppError e then Outcome.raiseDb (exnArgs e)
            else if isGoRpcError e then Outcome.raiseOp (exnArgs e)
            else Outcome.reraise true e) = Outcome.retNone := h
        cases ha : isAppError e
        · rw [ha] at h
          simp only [Bool.false_eq_true, if_false] at h
          cases hg : isGoRpcError e <;> rw [hg] at h <;>
            simp only [Bool.false_eq_true, if_false, if_true] at h <;>
            cases h
        · rw [ha] at h
          simp only [if_true] at h
          cases h

/-- C5 (witness): both operations return `None` on a pull that yields no
data. -/
theorem C5_witness :
    (stream_start_run .noData = .retNone ↔
      (PullResult.noData : PullResult) = .noData) ∧
    (stream_next_run .noData = .retNone ↔
      (PullResult.noData : PullResult) = .noData) :=
  C5_none_iff_noData .noData

/-- C9: decoding does not mutate the raw reply — on any successful run of
`EventData.__init__` on a fresh instance, the `raw_response` mapping
(including its `PkColNames` and `PkValues` entries) is unchanged; only the
instance dictionary is written. -/
theorem C9_decode_preserves_raw (raw : Dict) (s1 : PyState)
    (h : eventDataInitSt ⟨[], raw⟩ = .ok s1) : s1.raw = raw := by
  rw [eventDataInitSt_spec] at h
  unfold initSpec at h
  cases hC : dictGet raw "PkColNames" with
  | error e => rw [hC] at h; cases h
  | ok cols =>
      rw [hC] at h
      cases hV : dictGet raw "PkValues" with
      | error e2 => rw [hV] at h; cases h
      | ok vals =>
          rw [hV] at h
          cases vals with
          | list pkLists =>
              replace h : (if falsy cols then
                  (Except.ok (⟨preparedDict raw, raw⟩ : PyState)
                    : Except Exn PyState)
                  else List.foldlM pkRowsStep
                    (⟨preparedDict raw, raw⟩ : PyState) pkLists)
                  = Except.ok s1 := h
              cases hf : falsy cols
              · rw [hf] at h
                simp only [Bool.false_eq_true, if_false] at h
                exact (pkRowsFold pkLists _ _ h).1
              · rw [hf] at h
                simp only [if_true] at h
                cases h
                rfl
          | pynone =>
              replace h : (if falsy cols then
                  (Except.ok (⟨preparedDict raw, raw⟩ : PyState)
                    : Except Exn PyState)
                  else Except.error Exn.typeError) = Except.ok s1 := h
              cases hf : falsy cols <;> rw [hf] at h <;>
                simp only [Bool.false_eq_true, if_false, if_true] at h
              · cases h
              · cases h; rfl
          | str a =>
              replace h : (if falsy cols then
                  (Except.ok (⟨preparedDict raw, raw⟩ : PyState)
                    : Except Exn PyState)
                  else Except.error Exn.typeError) = Except.ok s1 := h
              cases hf : falsy cols <;> rw [hf] at h <;>
                simp only [Bool.false_eq_true, if_false, if_true] at h
              · cases h
              · cases h; rfl
          | int a =>
              replace h : (if falsy cols then
                  (Except.ok (⟨preparedDict raw, raw⟩ : PyState)
                    : Except Exn PyState)
                  else Except.error Exn.typeError) = Except.ok s1 := h
              cases hf : falsy cols <;> rw [hf] at h <;>
                simp only [Bool.false_eq_true, if_false, if_true] at h
              · cases h
              · cases h; rfl
          | pair a b =>
              replace h : (if falsy cols then
                  (Except.ok (⟨preparedDict raw, raw⟩ : PyState)
                    : Except Exn PyState)
                  else Except.error Exn.typeError) = Except.ok s1 := h
              cases hf : falsy cols <;> rw [hf] at h <;>
                simp only [Bool.false_eq_true, if_false, if_true] at h
              · cases h
              · cases h; rfl
          | coordV a b =>
              replace h : (if falsy cols then
                  (Except.ok (⟨preparedDict raw, raw⟩ : PyState)
                    : Except Exn PyState)
                  else Except.error Exn.typeError) = Except.ok s1 := h
              cases hf : falsy cols <;> rw [hf] at h <;>
                simp only [Bool.false_eq_true, if_false, if_true] at h
              · cases h
              · cases h; rfl

/-- C9 (witness): running the constructor on the sample reply leaves the
reply component of the state exactly as it was. -/
theorem C9_witness :
    (⟨dSample, rawSample⟩ : PyState).raw = rawSample :=
  C9_decode_preserves_raw rawSample ⟨dSample, rawSample⟩ rfl

/-- C4: for every raw reply with `PkColNames = [c1, c2]` and
`PkValues = [[v1, v2], [], [v3, v4]]`, decoding succeeds and yields
`PkRows = [[(c1,v1),(c2,v2)], [(c1,v3),(c2,v4)]]` — the empty middle entry is
skipped rather than contributing an empty row tuple, and each non-empty value
list is paired positionally against the column names. -/
theorem C4_decode_rows (raw : Dict) (c1 c2 v1 v2 v3 v4 : Val)
    (hc : dictGet raw "PkColNames" = .ok (.list [c1, c2]))
    (hv : dictGet raw "PkValues" = .ok (.list
      [.list [v1, v2], .list [], .list [v3, v4]])) :
    ∃ d, eventDataInit raw = .ok d ∧
      dictGet d "PkRows" = .ok (.list
        [.list [.pair c1 v1, .pair c2 v2],
         .list [.pair c1 v3, .pair c2 v4]]) := by
  have h0 : dictGet (preparedDict raw) "PkRows" = .ok (.list []) :=
    preparedDict_pkRows raw
  have hstep1 : pkRowsStep (⟨preparedDict raw, raw⟩ : PyState)
      (.list [v1, v2])
      = .ok (selfSet (⟨preparedDict raw, raw⟩ : PyState) "PkRows"
          (.list [.list [.pair c1 v1, .pair c2 v2]])) :=
    pkRowsStep_app (⟨preparedDict raw, raw⟩ : PyState) [v1, v2] [c1, c2] []
      rfl hc h0
  have h1 : dictGet (selfSet (⟨preparedDict raw, raw⟩ : PyState) "PkRows"
        (.list [.list [.pair c1 v1, .pair c2 v2]])).selfDict "PkRows"
      = .ok (.list [.list [.pair c1 v1, .pair c2 v2]]) :=
    dictGet_dictSet_self _ _ _
  have hstep3 : pkRowsStep (selfSet (⟨preparedDict raw, raw⟩ : PyState)
        "PkRows" (.list [.list [.pair c1 v1, .pair c2 v2]]))
      (.list [v3, v4])
      = .ok (selfSet (selfSet (⟨preparedDict raw, raw⟩ : PyState) "PkRows"
          (.list [.list [.pair c1 v1, .pair c2 v2]])) "PkRows"
          (.list [.list [.pair c1 v1, .pair c2 v2],
            .list [.pair c1 v3, .pair c2 v4]])) :=
    pkRowsStep_app _ [v3, v4] [c1, c2] [.list [.pair c1 v1, .pair c2 v2]]
      rfl hc h1
  have hfold : List.foldlM pkRowsStep (⟨preparedDict raw, raw⟩ : PyState)
      [Val.list [v1, v2], Val.list [], Val.list [v3, v4]]
      = .ok (selfSet (selfSet (⟨preparedDict raw, raw⟩ : PyState) "PkRows"
          (.list [.list [.pair c1 v1, .pair c2 v2]])) "PkRows"
          (.list [.list [.pair c1 v1, .pair c2 v2],
            .list [.pair c1 v3, .pair c2 v4]])) := by
    rw [List.foldlM_cons, hstep1]
    simp only [bind_ok_eq]
    rw [List.foldlM_cons, pkRowsStep_skip]
    simp only [bind_ok_eq]
    rw [List.foldlM_cons, hstep3]
    simp only [bind_ok_eq]
    rfl
  refine ⟨(selfSet (selfSet (⟨preparedDict raw, raw⟩ : PyState) "PkRows"
      (.list [.list [.pair c1 v1, .pair c2 v2]])) "PkRows"
      (.list [.list [.pair c1 v1, .pair c2 v2],
        .list [.pair c1 v3, .pair c2 v4]])).selfDict, ?_, ?_⟩
  · unfold eventDataInit
    rw [eventDataInitSt_spec]
    unfold initSpec
    rw [hc, hv]
    show (match List.foldlM pkRowsStep (⟨preparedDict raw, raw⟩ : PyState)
        [Val.list [v1, v2], Val.list [], Val.list [v3, v4]] with
      | Except.ok s => Except.ok s.selfDict
      | Except.error e => Except.error e) = _
    rw [hfold]
  · exact dictGet_dictSet_self _ _ _

/-- C4 (witness): the sample reply decodes to the two expected rows. -/
theorem C4_witness :
    ∃ d, eventDataInit rawSample = .ok d ∧
      dictGet d "PkRows" = .ok (.list
        [.list [.pair (.str "c1") (.int 1), .pair (.str "c2") (.int 2)],
         .list [.pair (.str "c1") (.int 3), .pair (.str "c2") (.int 4)]]) :=
  C4_decode_rows rawSample (.str "c1") (.str "c2") (.int 1) (.int 2)
    (.int 3) (.int 4) rfl rfl

/-- C6: on every raw reply that decodes successfully, the number of decoded
rows is at most the number of entries of the reply's `PkValues` array, and
also at most the number of its non-empty entries — every absent/empty value
list contributes no row tuple. -/
theorem C6_pkRows_length (raw d : Dict) (pkLists rows : List Val)
    (h : eventDataInit raw = .ok d)
    (hv : dictGet raw "PkValues" = .ok (.list pkLists))
    (hr : dictGet d "PkRows" = .ok (.list rows)) :
    rows.length ≤ pkLists.length ∧
    rows.length ≤ (pkLists.filter (fun v => !falsy v)).length := by
  obtain ⟨cols, vals, hC, hV2, hcase | hcase⟩ := eventDataInit_ok_cases raw d h
  · obtain ⟨hf, hd⟩ := hcase
    subst hd
    have hpk := preparedDict_pkRows raw
    rw [hr] at hpk
    cases hpk
    simp
  · obtain ⟨hf, pkLists2, s1, hvl, hfold, hd⟩ := hcase
    subst hd
    subst hvl
    rw [hv] at hV2
    cases hV2
    obtain ⟨hraw, hkeys, hrowsp⟩ := pkRowsFold pkLists _ _ hfold
    obtain ⟨rows2, hr2, hlen⟩ := hrowsp [] (preparedDict_pkRows raw)
    rw [hr] at hr2
    cases hr2
    simp only [List.length_nil] at hlen
    have hfle := List.length_filter_le (fun v => !falsy v) pkLists
    constructor
    · omega
    · omega

/-- C6 (witness): the sample reply has three `PkValues` entries and decodes
to two rows. -/
theorem C6_witness :
    (Val.list [.pair (.str "c1") (.int 1), .pair (.str "c2") (.int 2)]
      :: [Val.list [.pair (.str "c1") (.int 3), .pair (.str "c2") (.int 4)]]
      ).length ≤ ([Val.list [.int 1, .int 2], Val.list [],
        Val.list [.int 3, .int 4]] : List Val).length ∧
    (Val.list [.pair (.str "c1") (.int 1), .pair (.str "c2") (.int 2)]
      :: [Val.list [.pair (.str "c1") (.int 3), .pair (.str "c2") (.int 4)]]
      ).length ≤
      (([Val.list [.int 1, .int 2], Val.list [], Val.list [.int 3, .int 4]]
        : List Val).filter (fun v => !falsy v)).length :=
  C6_pkRows_length rawSample dSample
    [Val.list [.int 1, .int 2], Val.list [], Val.list [.int 3, .int 4]]
    [Val.list [.pair (.str "c1") (.int 1), .pair (.str "c2") (.int 2)],
     Val.list [.pair (.str "c1") (.int 3), .pair (.str "c2") (.int 4)]]
    rfl rfl rfl

/-- C10: every event mapping returned by a successful `stream_start` or
`stream_next` contains the `PkRows` key and contains neither `PkColNames`
nor `PkValues`. -/
theorem C10_event_keys (pull : PullResult) (d : Dict)
    (h : stream_start_run pull = .retEvent d ∨
      stream_next_run pull = .retEvent d) :
    containsKey d "PkRows" = true ∧
    containsKey d "PkColNames" = false ∧
    containsKey d "PkValues" = false := by
  obtain ⟨r, hrp, hdec⟩ := retEvent_of_run pull d h
  exact eventDataInit_keys r d hdec

/-- C10 (witness): the event returned for the sample reply has `PkRows` and
lacks the consumed keys. -/
theorem C10_witness :
    containsKey dSample "PkRows" = true ∧
    containsKey dSample "PkColNames" = false ∧
    containsKey dSample "PkValues" = false :=
  C10_event_keys (.reply rawSample) dSample (Or.inl rfl)

end UpdateStreamService
